import Mathlib

/-! TrustUp-API: verification of the loans and reputation core.

Shallow embedding of the TrustUp BNPL backend's pure core:

* `src/modules/loans/loans.service.ts` — `calculateLoanQuote`, `generateSchedule`.
  Currency amounts are modelled as exact rationals (`ℚ`); the JavaScript
  `Math.round(x*100)/100` and `Math.floor(x*100)/100` idioms become `round2`
  and `floor2` below (`Math.round x = ⌊x + 1/2⌋` for JavaScript numbers).
* `src/modules/reputation/reputation.service.ts` — `getReputationData`,
  `mapToReputation`, `invalidateReputation`, `persistReputation`,
  `fetchScoreFromBlockchain`.  The stateful cache-aside flow is embedded as a
  pure function over an explicit per-wallet environment (`Env`), a set of
  fault-injection flags (`Faults`, modelling the collaborators throwing), and
  an effect trace (`Trace`) recording which collaborators were consulted and
  what was written.  `await`ed rejections are modelled as `Except.error`.
-/

/-- JavaScript `Math.round(x * 100) / 100`: round to 2 decimal places.
`Math.round x = ⌊x + 1/2⌋` for finite numbers. -/
def round2 (x : ℚ) : ℚ := (⌊x * 100 + 1/2⌋ : ℤ) / 100

/-- JavaScript `Math.floor(x * 100) / 100`: truncate down to the cent. -/
def floor2 (x : ℚ) : ℚ := (⌊x * 100⌋ : ℤ) / 100

/-- Constant `GUARANTEE_PERCENT` — guarantee percentage of the total purchase amount. -/
def GUARANTEE_PERCENT : ℚ := 0.2

/-- Constant `LOAN_PERCENT` — loan percentage of the total purchase amount. -/
def LOAN_PERCENT : ℚ := 0.8

/-- DTO `LoanQuoteRequestDto` — amount, merchant id, term in months. -/
structure LoanQuoteRequest where
  amount : ℚ
  merchant : String
  term : ℕ
deriving Repr, DecidableEq

/-- DTO `SchedulePaymentDto`.  The JavaScript `dueDate` is `now` advanced by
`paymentNumber` whole months with the time-of-day zeroed; calendar dates are
modelled by the month offset from `now`. -/
structure SchedulePayment where
  paymentNumber : ℕ
  amount : ℚ
  dueDateMonthOffset : ℕ
deriving Repr, DecidableEq

/-- DTO `LoanQuoteResponseDto`. -/
structure LoanQuoteResponse where
  amount : ℚ
  guarantee : ℚ
  loanAmount : ℚ
  interestRate : ℚ
  totalRepayment : ℚ
  term : ℕ
  schedule : List SchedulePayment
deriving Repr, DecidableEq

/-- Reputation tiers. -/
inductive Tier where
  | gold
  | silver
  | bronze
  | poor
deriving Repr, DecidableEq

/-- The `Reputation` interface of `reputation.service.ts`.  `lastUpdated` is an
ISO timestamp string in the source, modelled as milliseconds since the epoch. -/
structure Reputation where
  wallet : String
  score : ℤ
  tier : Tier
  interestRate : ℚ
  maxCredit : ℚ
  lastUpdated : ℤ
deriving Repr, DecidableEq

/-- A `merchants` table row as selected by `validateMerchant`
(`id, name, is_active`). -/
structure Merchant where
  id : String
  name : String
  is_active : Bool
deriving Repr, DecidableEq

/-- Errors thrown by `calculateLoanQuote` / `validateMerchant`.  The
`LOAN_AMOUNT_EXCEEDS_CREDIT` message interpolates both the requested amount and
the credit limit; the error carries both so the message contents are part of
the model. -/
inductive LoanError where
  | amountExceedsCredit (requested : ℚ) (limit : ℚ)
  | merchantNotFound
  | merchantInactive (name : String)
deriving Repr, DecidableEq

/-- Function `validateMerchant`: `NotFoundException` when the row is missing (or the
query errored), `BadRequestException` when the merchant is inactive. -/
def validateMerchant (row : Option Merchant) : Except LoanError Unit :=
  match row with
  | none => Except.error LoanError.merchantNotFound
  | some m =>
    if m.is_active then Except.ok () else Except.error (LoanError.merchantInactive m.name)

/-- The loop body of `generateSchedule`: iteration `i` of `for i = 1..term`,
with `fuel` remaining iterations and `allocated` the sum of already-emitted
payments.  The last payment (`i = term`) absorbs the rounding remainder. -/
def scheduleAux (totalRepayment monthlyPayment : ℚ) (term : ℕ) :
    ℕ → ℚ → ℕ → List SchedulePayment
  | _, _, 0 => []
  | i, allocated, fuel + 1 =>
    if i ≤ term then
      let amount :=
        if i = term then round2 (totalRepayment - allocated) else monthlyPayment
      { paymentNumber := i, amount := amount, dueDateMonthOffset := i } ::
        scheduleAux totalRepayment monthlyPayment term (i + 1) (allocated + amount) fuel
    else []

/-- Function `generateSchedule(totalRepayment, term)`:
`monthlyPayment = Math.floor((totalRepayment / term) * 100) / 100`, then `term`
payments where the last one is `Math.round((totalRepayment - allocated) * 100) / 100`. -/
def generateSchedule (totalRepayment : ℚ) (term : ℕ) : List SchedulePayment :=
  let monthlyPayment := floor2 (totalRepayment / (term : ℚ))
  scheduleAux totalRepayment monthlyPayment term 1 0 term

/-- Function `calculateLoanQuote(wallet, dto)` after the reputation fetch: the fetched
reputation and the merchant row found for `dto.merchant` are passed explicitly.
Mirrors steps 2–5 of the source. -/
def calculateLoanQuote (reputation : Reputation) (merchantRow : Option Merchant)
    (dto : LoanQuoteRequest) : Except LoanError LoanQuoteResponse :=
  match validateMerchant merchantRow with
  | Except.error e => Except.error e
  | Except.ok _ =>
    if dto.amount > reputation.maxCredit then
      Except.error (LoanError.amountExceedsCredit dto.amount reputation.maxCredit)
    else
      let guarantee := round2 (dto.amount * GUARANTEE_PERCENT)
      let loanAmount := round2 (dto.amount * LOAN_PERCENT)
      let interestRate := reputation.interestRate
      let interest := loanAmount * (interestRate / 100) * ((dto.term : ℚ) / 12)
      let totalRepayment := round2 (loanAmount + interest)
      Except.ok
        { amount := dto.amount
          guarantee := guarantee
          loanAmount := loanAmount
          interestRate := interestRate
          totalRepayment := totalRepayment
          term := dto.term
          schedule := generateSchedule totalRepayment dto.term }

/-- Tier names as stored in the `reputation_cache.tier` column. -/
def tierToString : Tier → String
  | Tier.gold => "gold"
  | Tier.silver => "silver"
  | Tier.bronze => "bronze"
  | Tier.poor => "poor"

/-- Function `mapToReputation`: the project-standard threshold table mapping a raw
score to tier, interest rate and max credit. -/
def mapToReputation (wallet : String) (score : ℤ) (lastUpdated : ℤ) : Reputation :=
  if score ≥ 90 then
    { wallet := wallet, score := score, tier := Tier.gold, interestRate := 5,
      maxCredit := 5000, lastUpdated := lastUpdated }
  else if score ≥ 75 then
    { wallet := wallet, score := score, tier := Tier.silver, interestRate := 8,
      maxCredit := 3000, lastUpdated := lastUpdated }
  else if score ≥ 60 then
    { wallet := wallet, score := score, tier := Tier.bronze, interestRate := 12,
      maxCredit := 1500, lastUpdated := lastUpdated }
  else
    { wallet := wallet, score := score, tier := Tier.poor, interestRate := 18,
      maxCredit := 500, lastUpdated := lastUpdated }

/-- A `reputation_cache` row (the warm cache).  `last_synced_at` is an ISO
timestamp in the source, modelled as milliseconds since the epoch. -/
structure WarmRecord where
  user_id : ℕ
  wallet_address : String
  score : ℤ
  tier : String
  last_synced_at : ℤ
deriving Repr, DecidableEq

/-- The per-wallet state of the collaborators of `ReputationService`:
the hot cache lookup result (`none` when absent or expired), the warm store
row together with the query error flag of `.single()`, the `users` row id,
the score the oracle placeholder returns, the current time, and the configured
TTL. -/
structure Env where
  hot : Option Reputation
  warm : Option WarmRecord
  warmError : Bool
  userId : Option ℕ
  oracleScore : ℤ
  now : ℤ
  ttl : ℕ
deriving Repr, DecidableEq

/-- Fault injection: which collaborator calls reject (throw) when awaited. -/
structure Faults where
  hotGetThrows : Bool := false
  warmGetThrows : Bool := false
  hotSetThrows : Bool := false
  userLookupThrows : Bool := false
  upsertThrows : Bool := false
  oracleThrows : Bool := false
  hotDelThrows : Bool := false
  warmDelThrows : Bool := false
deriving Repr, DecidableEq

/-- No collaborator fails. -/
def noFaults : Faults := {}

/-- Effect trace: which collaborators were consulted (attempts count, even
when the call then throws) and what was written. -/
structure Trace where
  warmGets : ℕ := 0
  oracleCalls : ℕ := 0
  hotSets : List (String × Reputation × ℕ) := []
  warmUpserts : List WarmRecord := []
  hotDels : List String := []
  warmDels : List String := []
deriving Repr, DecidableEq

/-- The 60-minute staleness policy window, in milliseconds
(`diffMinutes < 60` with `diffMinutes = diffMs / (1000 * 60)`). -/
def warmFreshWindowMs : ℤ := 60 * 60000

/-- Function `persistReputation`: hot-cache `set`, then the `users` lookup, then the
`reputation_cache` upsert, all inside one internal try/catch whose failure is
logged and swallowed — so it only ever extends the trace, never throws, and a
throw at any step skips the remaining steps. -/
def persistReputation (reputation : Reputation) (env : Env) (f : Faults)
    (t : Trace) : Trace :=
  let cacheKey := "reputation:" ++ reputation.wallet
  if f.hotSetThrows then t
  else
    let t1 := { t with hotSets := t.hotSets ++ [(cacheKey, reputation, env.ttl)] }
    if f.userLookupThrows then t1
    else
      match env.userId with
      | some uid =>
        if f.upsertThrows then t1
        else
          { t1 with warmUpserts := t1.warmUpserts ++
              [{ user_id := uid, wallet_address := reputation.wallet,
                 score := reputation.score, tier := tierToString reputation.tier,
                 last_synced_at := reputation.lastUpdated }] }
      | none => t1

/-- Steps 3–4 of `getReputationData`: fetch from the blockchain oracle,
classify, persist. -/
def oracleStep (wallet : String) (env : Env) (f : Faults) (t : Trace) :
    Except Unit Reputation × Trace :=
  let t1 := { t with oracleCalls := t.oracleCalls + 1 }
  if f.oracleThrows then (Except.error (), t1)
  else
    let reputation := mapToReputation wallet env.oracleScore env.now
    (Except.ok reputation, persistReputation reputation env f t1)

/-- The try block of `getReputationData`: hot cache, then warm cache with the
60-minute staleness policy and hot back-fill, then the oracle. -/
def getReputationTry (wallet : String) (env : Env) (f : Faults) :
    Except Unit Reputation × Trace :=
  let cacheKey := "reputation:" ++ wallet
  let t0 : Trace := {}
  if f.hotGetThrows then (Except.error (), t0)
  else
    match env.hot with
    | some cachedRedis => (Except.ok cachedRedis, t0)
    | none =>
      let t1 := { t0 with warmGets := 1 }
      if f.warmGetThrows then (Except.error (), t1)
      else
        match env.warm, env.warmError with
        | some dbCache, false =>
          if env.now - dbCache.last_synced_at < warmFreshWindowMs then
            let reputation := mapToReputation wallet dbCache.score dbCache.last_synced_at
            if f.hotSetThrows then (Except.error (), t1)
            else
              (Except.ok reputation,
                { t1 with hotSets := t1.hotSets ++ [(cacheKey, reputation, env.ttl)] })
          else oracleStep wallet env f t1
        | _, _ => oracleStep wallet env f t1

/-- Function `getReputationData`: the try block above, and the catch handler that
re-queries the oracle directly, classifies, and returns (without persisting). -/
def getReputationData (wallet : String) (env : Env) (f : Faults) :
    Except Unit Reputation × Trace :=
  match getReputationTry wallet env f with
  | (Except.ok r, t) => (Except.ok r, t)
  | (Except.error _, t) =>
    let t1 := { t with oracleCalls := t.oracleCalls + 1 }
    if f.oracleThrows then (Except.error (), t1)
    else (Except.ok (mapToReputation wallet env.oracleScore env.now), t1)

/-- Function `invalidateReputation`: Redis `del` then Supabase `delete`, both inside a
single try/catch that logs and swallows any failure (so the method never
throws, but a throw in the first deletion skips the second). -/
def invalidateReputation (wallet : String) (f : Faults) :
    Except Unit Unit × Trace :=
  let cacheKey := "reputation:" ++ wallet
  let t0 : Trace := {}
  if f.hotDelThrows then (Except.ok (), t0)
  else
    let t1 := { t0 with hotDels := [cacheKey] }
    if f.warmDelThrows then (Except.ok (), t1)
    else (Except.ok (), { t1 with warmDels := [wallet] })

/-- JavaScript `ToInt32` (the effect of `hash |= 0`): wrap to a signed 32-bit
integer. -/
def toInt32 (n : ℤ) : ℤ :=
  let m := n % 4294967296
  if m < 2147483648 then m else m - 4294967296

/-- One step of the accumulator loop:
`hash = (hash << 5) - hash + charCode; hash |= 0`.  The `<< 5` is itself a
32-bit operation. -/
def hashStep (h : ℤ) (c : ℕ) : ℤ := toInt32 (toInt32 (h * 32) - h + (c : ℤ))

/-- Function `fetchScoreFromBlockchain`: fold the UTF-16 char codes through `hashStep`
starting from 0, then `Math.abs(hash % 101)` (JavaScript `%` truncates toward
zero, i.e. `Int.tmod`). -/
def fetchScoreFromBlockchain (wallet : String) : ℤ :=
  let hash := wallet.toList.foldl (fun h ch => hashStep h ch.toNat) 0
  ((Int.tmod hash 101).natAbs : ℤ)

/-! ## Theorems -/

/-- Lemma: `round2` is the identity on exact multiples of one cent. -/
theorem round2_cent (n : ℤ) : round2 ((n : ℚ) / 100) = (n : ℚ) / 100 := by
  unfold round2
  rw [div_mul_cancel₀ _ (by norm_num : (100 : ℚ) ≠ 0)]
  norm_num

/-- Lemma: `round2` is the identity on any rational that is an exact number of cents. -/
theorem round2_eq_self (x : ℚ) (n : ℤ) (h : x * 100 = (n : ℚ)) : round2 x = x := by
  have hx : x = (n : ℚ) / 100 := by
    rw [eq_div_iff (by norm_num : (100 : ℚ) ≠ 0)]
    exact h
  rw [hx, round2_cent]

/-- Floor of a cast natural division. -/
theorem floor_natCast_div (c t : ℕ) (ht : 0 < t) :
    ⌊(c : ℚ) / (t : ℚ)⌋ = ((c / t : ℕ) : ℤ) := by
  have htQ : (0 : ℚ) < (t : ℚ) := by exact_mod_cast ht
  rw [Int.floor_eq_iff]
  constructor
  · rw [le_div_iff₀ htQ]
    exact_mod_cast Nat.div_mul_le_self c t
  · rw [div_lt_iff₀ htQ]
    have hlt : c < (c / t + 1) * t := by
      have hmod := Nat.mod_lt c ht
      have hdm := Nat.div_add_mod c t
      calc c = t * (c / t) + c % t := hdm.symm
        _ < t * (c / t) + t := by omega
        _ = (c / t + 1) * t := by ring
    exact_mod_cast hlt

/-! ## Loans service data model (`loans.service.ts`, DTOs) -/

/-- Closed form of the schedule loop: starting at payment `i` with
`i + n = term`, it emits `n` equal payments of `monthlyPayment` followed by the
final absorbing payment. -/
theorem scheduleAux_closed (total monthly : ℚ) (term : ℕ) :
    ∀ (n i : ℕ) (allocated : ℚ), i + n = term →
      scheduleAux total monthly term i allocated (n + 1) =
        ((List.range n).map fun k =>
          { paymentNumber := i + k, amount := monthly, dueDateMonthOffset := i + k }) ++
        [{ paymentNumber := term, amount := round2 (total - (allocated + n * monthly)),
           dueDateMonthOffset := term }] := by
  intro n
  induction n with
  | zero =>
    intro i allocated hi
    simp only [Nat.add_zero] at hi
    subst hi
    simp [scheduleAux]
  | succ n ih =>
    intro i allocated hi
    have hle : i ≤ term := by omega
    have hne : i ≠ term := by omega
    rw [scheduleAux]
    simp only [if_pos hle, if_neg hne]
    rw [ih (i + 1) (allocated + monthly) (by omega)]
    rw [List.range_succ_eq_map, List.map_cons, List.map_map, List.cons_append]
    refine List.cons_eq_cons.mpr ⟨by simp, ?rest⟩
    have hmap : ∀ a ∈ List.range n,
        (fun k => ({ paymentNumber := i + 1 + k, amount := monthly,
                     dueDateMonthOffset := i + 1 + k } : SchedulePayment)) a =
        ((fun k => ({ paymentNumber := i + k, amount := monthly,
                      dueDateMonthOffset := i + k } : SchedulePayment)) ∘ Nat.succ) a := by
      intro a _
      simp only [Function.comp_apply, Nat.succ_eq_add_one]
      have h1 : i + 1 + a = i + (a + 1) := by omega
      rw [h1]
    rw [List.map_congr_left hmap]
    have h3 : ((n + 1 : ℕ) : ℚ) = (n : ℚ) + 1 := by push_cast; ring
    have h2 : allocated + monthly + (n : ℚ) * monthly
        = allocated + ((n : ℚ) + 1) * monthly := by ring
    rw [h3, h2]

/-- Function `generateSchedule` in closed form for `term ≥ 1`. -/
theorem generateSchedule_closed (total : ℚ) (term : ℕ) (h1 : 1 ≤ term) :
    generateSchedule total term =
      ((List.range (term - 1)).map fun k =>
        { paymentNumber := k + 1, amount := floor2 (total / (term : ℚ)),
          dueDateMonthOffset := k + 1 }) ++
      [{ paymentNumber := term,
         amount := round2 (total - (term - 1 : ℕ) * floor2 (total / (term : ℚ))),
         dueDateMonthOffset := term }] := by
  unfold generateSchedule
  have hterm : term = (term - 1) + 1 := by omega
  rw [hterm]
  rw [scheduleAux_closed _ _ _ (term - 1) 1 0 (by omega)]
  rw [← hterm]
  simp only [zero_add, Nat.add_comm 1]

/-- Summing a constant over `List.range`. -/
theorem sum_map_range_const (n : ℕ) (x : ℚ) :
    ((List.range n).map fun _ => x).sum = n * x := by
  induction n with
  | zero => simp
  | succ n ih =>
    rw [List.range_succ, List.map_append, List.sum_append]
    simp [ih]
    ring

/-- The monthly payment for a total of `c` cents is `⌊c / term⌋` cents. -/
theorem monthly_cents (c term : ℕ) (h1 : 1 ≤ term) :
    floor2 ((c : ℚ) / 100 / (term : ℚ)) = ((c / term : ℕ) : ℚ) / 100 := by
  unfold floor2
  have htQ : (term : ℚ) ≠ 0 := by
    have h0 : (0 : ℚ) < (term : ℚ) := by exact_mod_cast h1
    exact ne_of_gt h0
  have hx : (c : ℚ) / 100 / (term : ℚ) * 100 = (c : ℚ) / (term : ℚ) := by
    field_simp
    ring
  rw [hx, floor_natCast_div c term (by omega), Int.cast_natCast]

/-- For a total repayment of `c` cents and `term ≥ 1`, the schedule is
`term - 1` equal payments of `⌊c / term⌋` cents followed by a final payment of
the exact remainder (the `round2` in the source is the identity there). -/
theorem generateSchedule_cents (c term : ℕ) (h1 : 1 ≤ term) :
    generateSchedule ((c : ℚ) / 100) term =
      ((List.range (term - 1)).map fun k =>
        { paymentNumber := k + 1, amount := ((c / term : ℕ) : ℚ) / 100,
          dueDateMonthOffset := k + 1 }) ++
      [{ paymentNumber := term,
         amount := (c : ℚ) / 100 - ((term - 1 : ℕ) : ℚ) * (((c / term : ℕ) : ℚ) / 100),
         dueDateMonthOffset := term }] := by
  have hmon := monthly_cents c term h1
  set m := c / term with hm
  set t1 := term - 1 with ht1
  have hlast : round2 ((c : ℚ) / 100 - (t1 : ℚ) * ((m : ℚ) / 100)) =
      (c : ℚ) / 100 - (t1 : ℚ) * ((m : ℚ) / 100) := by
    apply round2_eq_self _ ((c : ℤ) - ((t1 * m : ℕ) : ℤ))
    push_cast
    ring
  rw [generateSchedule_closed _ _ h1, ← ht1, hmon, hlast]

/-- C1: for every positive `totalRepayment` of `c` cents (at most two decimal
places) and every `term ∈ [1,12]`, `generateSchedule` returns exactly `term`
payments numbered contiguously `1..term`; every non-final payment equals
`floor(totalRepayment / term × 100) / 100`; the final payment equals
`totalRepayment` minus the sum of all previous payments; the amounts sum to
`totalRepayment` exactly; and `term = 1` yields a single full payment. -/
theorem C1_generateSchedule_exact (c term : ℕ) (hc : 0 < c) (h1 : 1 ≤ term)
    (h2 : term ≤ 12) :
    (generateSchedule ((c : ℚ) / 100) term).length = term ∧
    (generateSchedule ((c : ℚ) / 100) term).map SchedulePayment.paymentNumber =
      (List.range term).map (fun k => k + 1) ∧
    (∀ p ∈ generateSchedule ((c : ℚ) / 100) term, p.paymentNumber ≠ term →
      p.amount = floor2 ((c : ℚ) / 100 / (term : ℚ))) ∧
    (∀ p ∈ generateSchedule ((c : ℚ) / 100) term, p.paymentNumber = term →
      p.amount = (c : ℚ) / 100 -
        (((generateSchedule ((c : ℚ) / 100) term).take (term - 1)).map
          SchedulePayment.amount).sum) ∧
    ((generateSchedule ((c : ℚ) / 100) term).map SchedulePayment.amount).sum =
      (c : ℚ) / 100 ∧
    (term = 1 → generateSchedule ((c : ℚ) / 100) term =
      [{ paymentNumber := 1, amount := (c : ℚ) / 100, dueDateMonthOffset := 1 }]) := by
  have hclosed := generateSchedule_cents c term h1
  have hmon := monthly_cents c term h1
  set total : ℚ := (c : ℚ) / 100 with htot
  set m := c / term with hm
  set t1 := term - 1 with ht1
  set mp : ℚ := (m : ℚ) / 100 with hmp
  set A : List SchedulePayment := (List.range t1).map (fun k =>
    { paymentNumber := k + 1, amount := mp, dueDateMonthOffset := k + 1 }) with hA
  set lastP : SchedulePayment :=
    { paymentNumber := term, amount := total - (t1 : ℚ) * mp,
      dueDateMonthOffset := term } with hlastP
  have hAlen : A.length = t1 := by rw [hA]; simp
  have hAsum : (A.map SchedulePayment.amount).sum = (t1 : ℚ) * mp := by
    rw [hA, List.map_map]
    exact sum_map_range_const t1 mp
  have htermt1 : term = t1 + 1 := by omega
  rw [hclosed]
  refine ⟨?len, ?nums, ?nonfinal, ?final, ?sum, ?one⟩
  case len =>
    rw [List.length_append, hAlen]
    simp [htermt1]
  case nums =>
    rw [List.map_append, hA, List.map_map]
    conv_rhs => rw [htermt1, List.range_succ, List.map_append]
    congr 1
    simp [hlastP, htermt1]
  case nonfinal =>
    intro p hp hne
    rw [hmon]
    rcases List.mem_append.mp hp with hpA | hpl
    · rw [hA] at hpA
      rcases List.mem_map.mp hpA with ⟨k, hk, hpk⟩
      rw [← hpk]
    · rw [List.mem_singleton] at hpl
      rw [hpl, hlastP] at hne
      exact absurd rfl hne
  case final =>
    intro p hp hpn
    rw [← hAlen, List.take_left, hAsum]
    rcases List.mem_append.mp hp with hpA | hpl
    · exfalso
      rw [hA] at hpA
      rcases List.mem_map.mp hpA with ⟨k, hk, hpk⟩
      rw [List.mem_range] at hk
      rw [← hpk] at hpn
      simp only at hpn
      omega
    · rw [List.mem_singleton] at hpl
      rw [hpl, hlastP]
  case sum =>
    rw [List.map_append, List.sum_append, hAsum, hlastP]
    simp
  case one =>
    intro hone
    have ht10 : t1 = 0 := by omega
    rw [hA, hlastP, ht10, hone]
    simp

/-! ## Reputation service embedding (`reputation.service.ts`) -/

/-- C3: for every integer score in [0,100], the classifier yields exactly the
tier triple of the threshold table — gold/5/5000 for score ≥ 90, silver/8/3000
for 75–89, bronze/12/1500 for 60–74, poor/18/500 below 60 — and repeated calls
with the same score return identical results. -/
theorem C3_mapToReputation_thresholds (w : String) (lu : ℤ) (score : ℤ)
    (h0 : 0 ≤ score) (h1 : score ≤ 100) :
    (90 ≤ score →
      (mapToReputation w score lu).tier = Tier.gold ∧
      (mapToReputation w score lu).interestRate = 5 ∧
      (mapToReputation w score lu).maxCredit = 5000) ∧
    (75 ≤ score → score < 90 →
      (mapToReputation w score lu).tier = Tier.silver ∧
      (mapToReputation w score lu).interestRate = 8 ∧
      (mapToReputation w score lu).maxCredit = 3000) ∧
    (60 ≤ score → score < 75 →
      (mapToReputation w score lu).tier = Tier.bronze ∧
      (mapToReputation w score lu).interestRate = 12 ∧
      (mapToReputation w score lu).maxCredit = 1500) ∧
    (score < 60 →
      (mapToReputation w score lu).tier = Tier.poor ∧
      (mapToReputation w score lu).interestRate = 18 ∧
      (mapToReputation w score lu).maxCredit = 500) ∧
    mapToReputation w score lu = mapToReputation w score lu := by
  refine ⟨fun h90 => ?gold, fun h75 h90 => ?silver, fun h60 h75 => ?bronze,
    fun h60 => ?poor, rfl⟩ <;>
    unfold mapToReputation <;>
    split_ifs <;>
    first
      | exact ⟨rfl, rfl, rfl⟩
      | omega

/-- Witness for C3 at the silver boundary score 75. -/
theorem C3_mapToReputation_thresholds_witness :
    (0 : ℤ) ≤ 75 ∧ (75 : ℤ) ≤ 100 ∧
    (mapToReputation "w" 75 0).tier = Tier.silver ∧
    (mapToReputation "w" 75 0).interestRate = 8 ∧
    (mapToReputation "w" 75 0).maxCredit = 3000 := by
  have h := (C3_mapToReputation_thresholds "w" 0 75 (by norm_num)
    (by norm_num)).2.1 (by norm_num) (by norm_num)
  exact ⟨by norm_num, by norm_num, h.1, h.2.1, h.2.2⟩

/-- C4: for every accepted quote request (active merchant, amount within the
credit limit), `calculateLoanQuote` returns a quote with
`guarantee = round2(amount × 0.20)`, `loanAmount = round2(amount × 0.80)`,
`interest = loanAmount × (interestRate/100) × (term/12)` and
`totalRepayment = round2(loanAmount + interest)`, echoing amount, rate and
term. -/
theorem C4_calculateLoanQuote_formulas (rep : Reputation) (m : Merchant)
    (dto : LoanQuoteRequest) (hact : m.is_active = true)
    (hcr : dto.amount ≤ rep.maxCredit) :
    ∃ q, calculateLoanQuote rep (some m) dto = Except.ok q ∧
      q.guarantee = round2 (dto.amount * 0.2) ∧
      q.loanAmount = round2 (dto.amount * 0.8) ∧
      q.totalRepayment = round2 (q.loanAmount +
        q.loanAmount * (rep.interestRate / 100) * ((dto.term : ℚ) / 12)) ∧
      q.interestRate = rep.interestRate ∧
      q.amount = dto.amount ∧
      q.term = dto.term := by
  have hv : validateMerchant (some m) = Except.ok () := by
    simp [validateMerchant, hact]
  unfold calculateLoanQuote
  rw [hv, if_neg (not_lt.mpr hcr)]
  exact ⟨_, rfl, rfl, rfl, rfl, rfl, rfl, rfl⟩

/-- Witness for C4: the silver-tier scenario — interestRate 8, amount 500,
term 4 gives guarantee 100, loanAmount 400, totalRepayment 410.67. -/
theorem C4_calculateLoanQuote_formulas_witness :
    ∃ q, calculateLoanQuote
        { wallet := "W", score := 75, tier := Tier.silver, interestRate := 8,
          maxCredit := 3000, lastUpdated := 0 }
        (some { id := "M", name := "Shop", is_active := true })
        { amount := 500, merchant := "M", term := 4 } = Except.ok q ∧
      q.guarantee = 100 ∧ q.loanAmount = 400 ∧ q.totalRepayment = 410.67 := by
  obtain ⟨q, hq, hg, hl, ht, _, _, _⟩ := C4_calculateLoanQuote_formulas
    { wallet := "W", score := 75, tier := Tier.silver, interestRate := 8,
      maxCredit := 3000, lastUpdated := 0 }
    { id := "M", name := "Shop", is_active := true }
    { amount := 500, merchant := "M", term := 4 }
    rfl (by norm_num)
  refine ⟨q, hq, ?g, ?l, ?t⟩
  · rw [hg]; norm_num [round2]
  · rw [hl]; norm_num [round2]
  · rw [ht, hl]; norm_num [round2]

/-- C5: the credit-limit gate — an amount exactly equal to `maxCredit` is
accepted; any amount above it is rejected with the `AmountExceedsCredit`
error carrying both the requested amount and the limit, and no quote is
computed. -/
theorem C5_credit_limit_gate (rep : Reputation) (m : Merchant)
    (dto : LoanQuoteRequest) (hact : m.is_active = true) :
    (dto.amount = rep.maxCredit →
      ∃ q, calculateLoanQuote rep (some m) dto = Except.ok q) ∧
    (dto.amount > rep.maxCredit →
      calculateLoanQuote rep (some m) dto =
        Except.error (LoanError.amountExceedsCredit dto.amount rep.maxCredit)) := by
  have hv : validateMerchant (some m) = Except.ok () := by
    simp [validateMerchant, hact]
  constructor
  · intro heq
    unfold calculateLoanQuote
    rw [hv, if_neg (not_lt.mpr (le_of_eq heq))]
    exact ⟨_, rfl⟩
  · intro hgt
    unfold calculateLoanQuote
    rw [hv, if_pos hgt]

/-- Witness for C5: maxCredit 3000 — amount 3000 accepted, amount 3000.01
(one cent above) rejected with the error carrying 3000.01 and 3000. -/
theorem C5_credit_limit_gate_witness :
    (∃ q, calculateLoanQuote
        { wallet := "W", score := 75, tier := Tier.silver, interestRate := 8,
          maxCredit := 3000, lastUpdated := 0 }
        (some { id := "M", name := "Shop", is_active := true })
        { amount := 3000, merchant := "M", term := 4 } = Except.ok q) ∧
    calculateLoanQuote
        { wallet := "W", score := 75, tier := Tier.silver, interestRate := 8,
          maxCredit := 3000, lastUpdated := 0 }
        (some { id := "M", name := "Shop", is_active := true })
        { amount := 3000.01, merchant := "M", term := 4 } =
      Except.error (LoanError.amountExceedsCredit 3000.01 3000) := by
  constructor
  · exact (C5_credit_limit_gate
      { wallet := "W", score := 75, tier := Tier.silver, interestRate := 8,
        maxCredit := 3000, lastUpdated := 0 }
      { id := "M", name := "Shop", is_active := true }
      { amount := 3000, merchant := "M", term := 4 } rfl).1 rfl
  · exact (C5_credit_limit_gate
      { wallet := "W", score := 75, tier := Tier.silver, interestRate := 8,
        maxCredit := 3000, lastUpdated := 0 }
      { id := "M", name := "Shop", is_active := true }
      { amount := 3000.01, merchant := "M", term := 4 } rfl).2 (by norm_num)

/-- The 20/80 rounding split is exact on amounts with at most two decimal
places: `round2(a × 0.2) + round2(a × 0.8) = a` for `a = k/100`. -/
theorem round2_split (k : ℕ) :
    round2 ((k : ℚ) / 100 * 0.2) + round2 ((k : ℚ) / 100 * 0.8) = (k : ℚ) / 100 := by
  obtain ⟨q, r, hr5, hk⟩ : ∃ q r, r < 5 ∧ k = 5 * q + r :=
    ⟨k / 5, k % 5, Nat.mod_lt k (by norm_num), by omega⟩
  subst hk
  unfold round2
  have hfl1 : ⌊((5 * q + r : ℕ) : ℚ) / 100 * 0.2 * 100 + 1/2⌋ =
      (q : ℤ) + ⌊(r : ℚ) / 5 + 1/2⌋ := by
    have harg : ((5 * q + r : ℕ) : ℚ) / 100 * 0.2 * 100 + 1/2 =
        ((q : ℤ) : ℚ) + ((r : ℚ) / 5 + 1/2) := by
      push_cast
      ring
    rw [harg, Int.floor_int_add]
  have hfl2 : ⌊((5 * q + r : ℕ) : ℚ) / 100 * 0.8 * 100 + 1/2⌋ =
      (4 * q : ℤ) + ⌊4 * (r : ℚ) / 5 + 1/2⌋ := by
    have harg : ((5 * q + r : ℕ) : ℚ) / 100 * 0.8 * 100 + 1/2 =
        ((4 * q : ℤ) : ℚ) + (4 * (r : ℚ) / 5 + 1/2) := by
      push_cast
      ring
    rw [harg, Int.floor_int_add]
  rw [hfl1, hfl2]
  have hsum : ⌊(r : ℚ) / 5 + 1/2⌋ + ⌊4 * (r : ℚ) / 5 + 1/2⌋ = (r : ℤ) := by
    interval_cases r <;> norm_num
  have hsumQ : ((⌊(r : ℚ) / 5 + 1/2⌋ : ℤ) : ℚ) + ((⌊4 * (r : ℚ) / 5 + 1/2⌋ : ℤ) : ℚ)
      = (r : ℚ) := by exact_mod_cast hsum
  push_cast at hsumQ ⊢
  linarith [hsumQ]

/-- C7: for every valid amount of `k` cents that passes the gates, the quote
satisfies `guarantee + loanAmount = amount` (exactly, hence within rounding)
and `guarantee = round2(amount × 0.2)`; and the 20/80 split is independent of
the reputation: any other reputation whose limit also admits the amount yields
the same guarantee and loan amount. -/
theorem C7_split_invariant (k : ℕ) (rep : Reputation) (m : Merchant)
    (dto : LoanQuoteRequest) (hamt : dto.amount = (k : ℚ) / 100)
    (hact : m.is_active = true) (hcr : dto.amount ≤ rep.maxCredit) :
    ∃ q, calculateLoanQuote rep (some m) dto = Except.ok q ∧
      q.guarantee + q.loanAmount = dto.amount ∧
      q.guarantee = round2 (dto.amount * 0.2) ∧
      (∀ rep2 : Reputation, dto.amount ≤ rep2.maxCredit →
        ∃ q2, calculateLoanQuote rep2 (some m) dto = Except.ok q2 ∧
          q2.guarantee = q.guarantee ∧ q2.loanAmount = q.loanAmount) := by
  have hv : validateMerchant (some m) = Except.ok () := by
    simp [validateMerchant, hact]
  have hsplit : round2 (dto.amount * 0.2) + round2 (dto.amount * 0.8) = dto.amount := by
    rw [hamt]
    exact round2_split k
  unfold calculateLoanQuote
  rw [hv, if_neg (not_lt.mpr hcr)]
  refine ⟨_, rfl, ?sum, rfl, ?indep⟩
  · show round2 (dto.amount * GUARANTEE_PERCENT) + round2 (dto.amount * LOAN_PERCENT)
      = dto.amount
    exact hsplit
  · intro rep2 hcr2
    simp only [if_neg (not_lt.mpr hcr2)]
    exact ⟨_, rfl, rfl, rfl⟩

/-- Witness for C7 at amount 4.99 (499 cents): guarantee 1.00, loan 3.99. -/
theorem C7_split_invariant_witness :
    ∃ q, calculateLoanQuote
        { wallet := "W", score := 40, tier := Tier.poor, interestRate := 18,
          maxCredit := 500, lastUpdated := 0 }
        (some { id := "M", name := "Shop", is_active := true })
        { amount := 4.99, merchant := "M", term := 3 } = Except.ok q ∧
      q.guarantee + q.loanAmount = 4.99 ∧
      q.guarantee = round2 (4.99 * 0.2) := by
  obtain ⟨q, hq, hsum, hg, _⟩ := C7_split_invariant 499
    { wallet := "W", score := 40, tier := Tier.poor, interestRate := 18,
      maxCredit := 500, lastUpdated := 0 }
    { id := "M", name := "Shop", is_active := true }
    { amount := 4.99, merchant := "M", term := 3 }
    (by norm_num) rfl (by norm_num)
  exact ⟨q, hq, hsum, hg⟩

/-- C2: tier precedence of `getReputationData` with no collaborator faults —
a hot-cache hit is returned as-is with neither the warm store nor the oracle
consulted; on a hot miss a warm record fresher than 60 minutes is classified,
back-filled into the hot cache with the configured TTL and returned without an
oracle call; a stale warm record, and a warm miss, each trigger exactly one
oracle call. -/
theorem C2_cache_tier_precedence (wallet : String) (env : Env) :
    (∀ r, env.hot = some r →
      getReputationData wallet env noFaults = (Except.ok r, {})) ∧
    (∀ db, env.hot = none → env.warm = some db → env.warmError = false →
      env.now - db.last_synced_at < warmFreshWindowMs →
      getReputationData wallet env noFaults =
        (Except.ok (mapToReputation wallet db.score db.last_synced_at),
          { warmGets := 1,
            hotSets := [("reputation:" ++ wallet,
              mapToReputation wallet db.score db.last_synced_at, env.ttl)] })) ∧
    (∀ db, env.hot = none → env.warm = some db → env.warmError = false →
      warmFreshWindowMs ≤ env.now - db.last_synced_at →
      (getReputationData wallet env noFaults).2.oracleCalls = 1 ∧
      (getReputationData wallet env noFaults).2.warmGets = 1) ∧
    (env.hot = none → env.warm = none →
      (getReputationData wallet env noFaults).2.oracleCalls = 1) := by
  refine ⟨?hotHit, ?warmHit, ?warmStale, ?warmMiss⟩
  case hotHit =>
    intro r hr
    simp [getReputationData, getReputationTry, noFaults, hr]
  case warmHit =>
    intro db hhot hwarm hwe hlt
    simp [getReputationData, getReputationTry, noFaults, hhot, hwarm, hwe, hlt]
  case warmStale =>
    intro db hhot hwarm hwe hge
    have hni : ¬(env.now - db.last_synced_at < warmFreshWindowMs) := not_lt.mpr hge
    rcases hu : env.userId with _ | uid <;>
      simp [getReputationData, getReputationTry, oracleStep, persistReputation,
        noFaults, hhot, hwarm, hwe, hni, hu]
  case warmMiss =>
    intro hhot hwarm
    cases hwe : env.warmError <;> rcases hu : env.userId with _ | uid <;>
      simp [getReputationData, getReputationTry, oracleStep, persistReputation,
        noFaults, hhot, hwarm, hwe, hu]

/-- Witness for C2: the staleness boundary — a warm record 59 minutes old is
used (no oracle call), one 61 minutes old triggers an oracle fetch. -/
theorem C2_cache_tier_precedence_witness :
    (getReputationData "w"
      { hot := none,
        warm := some { user_id := 1, wallet_address := "w", score := 80,
                       tier := "silver", last_synced_at := 0 },
        warmError := false, userId := some 1, oracleScore := 10,
        now := 59 * 60000, ttl := 300 } noFaults).2.oracleCalls = 0 ∧
    (getReputationData "w"
      { hot := none,
        warm := some { user_id := 1, wallet_address := "w", score := 80,
                       tier := "silver", last_synced_at := 0 },
        warmError := false, userId := some 1, oracleScore := 10,
        now := 59 * 60000, ttl := 300 } noFaults).1 =
      Except.ok (mapToReputation "w" 80 0) ∧
    (getReputationData "w"
      { hot := none,
        warm := some { user_id := 1, wallet_address := "w", score := 80,
                       tier := "silver", last_synced_at := 0 },
        warmError := false, userId := some 1, oracleScore := 10,
        now := 61 * 60000, ttl := 300 } noFaults).2.oracleCalls = 1 := by
  have h59 := (C2_cache_tier_precedence "w"
    { hot := none,
      warm := some { user_id := 1, wallet_address := "w", score := 80,
                     tier := "silver", last_synced_at := 0 },
      warmError := false, userId := some 1, oracleScore := 10,
      now := 59 * 60000, ttl := 300 }).2.1
    { user_id := 1, wallet_address := "w", score := 80,
      tier := "silver", last_synced_at := 0 }
    rfl rfl rfl (by norm_num [warmFreshWindowMs])
  have h61 := (C2_cache_tier_precedence "w"
    { hot := none,
      warm := some { user_id := 1, wallet_address := "w", score := 80,
                     tier := "silver", last_synced_at := 0 },
      warmError := false, userId := some 1, oracleScore := 10,
      now := 61 * 60000, ttl := 300 }).2.2.1
    { user_id := 1, wallet_address := "w", score := 80,
      tier := "silver", last_synced_at := 0 }
    rfl rfl rfl (by norm_num [warmFreshWindowMs])
  refine ⟨?a, ?b, h61.1⟩
  · rw [h59]
  · rw [h59]

/-- C6: as long as the oracle itself succeeds, `getReputationData` never
throws to its caller — whatever combination of hot-lookup, warm-lookup,
back-fill or persistence faults is injected, the result is `Except.ok`; and
whenever the try block fails (in particular on a hot-lookup throw), the catch
handler re-queries the oracle and returns the freshly classified snapshot. -/
theorem C6_oracle_fallback (wallet : String) (env : Env) (f : Faults)
    (hok : f.oracleThrows = false) :
    (∃ r, (getReputationData wallet env f).1 = Except.ok r) ∧
    (∀ t1, getReputationTry wallet env f = (Except.error (), t1) →
      (getReputationData wallet env f).1 =
        Except.ok (mapToReputation wallet env.oracleScore env.now)) ∧
    (f.hotGetThrows = true →
      (getReputationData wallet env f).1 =
        Except.ok (mapToReputation wallet env.oracleScore env.now)) := by
  refine ⟨?ex, ?catchall, ?hotThrow⟩
  case ex =>
    unfold getReputationData
    rcases htry : getReputationTry wallet env f with ⟨res, t⟩
    cases res with
    | ok r => exact ⟨r, rfl⟩
    | error e => exact ⟨mapToReputation wallet env.oracleScore env.now, by simp [hok]⟩
  case catchall =>
    intro t1 htry
    unfold getReputationData
    rw [htry]
    simp [hok]
  case hotThrow =>
    intro hh
    have htry : getReputationTry wallet env f = (Except.error (), {}) := by
      simp [getReputationTry, hh]
    unfold getReputationData
    rw [htry]
    simp [hok]

/-- Witness for C6: with the warm-store write-back and the user lookup both
failing (and a hot and warm miss), the read still succeeds with the oracle
snapshot. -/
theorem C6_oracle_fallback_witness :
    (getReputationData "w"
      { hot := none, warm := none, warmError := false, userId := some 1,
        oracleScore := 95, now := 0, ttl := 300 }
      { upsertThrows := true, userLookupThrows := true }).1 =
      Except.ok (mapToReputation "w" 95 0) := by
  obtain ⟨r, hr⟩ := (C6_oracle_fallback "w"
    { hot := none, warm := none, warmError := false, userId := some 1,
      oracleScore := 95, now := 0, ttl := 300 }
    { upsertThrows := true, userLookupThrows := true } rfl).1
  rw [hr]
  have : r = mapToReputation "w" 95 0 := by
    have h := hr
    simp [getReputationData, getReputationTry, oracleStep, persistReputation] at h
    exact h.symm
  rw [this]

/-- C8 counterexample: when the hot-cache deletion throws, the single
try/catch of `invalidateReputation` swallows the error and skips the rest of
the block — the warm-store deletion is never attempted (and the hot deletion
did not take effect either), contradicting the claim that each sub-operation
failure does not abort the other. -/
theorem C8_invalidate_counterexample :
    (invalidateReputation "w" { hotDelThrows := true }).2.warmDels = [] ∧
    (invalidateReputation "w" { hotDelThrows := true }).2.hotDels = [] ∧
    (invalidateReputation "w" { hotDelThrows := true }).1 = Except.ok () :=
  ⟨rfl, rfl, rfl⟩

/-- C8 amended: `invalidateReputation` removes the hot cache entry and then
deletes the warm store record; any failure is caught and logged and the
method itself never throws; a warm-store deletion failure leaves the hot
deletion already performed, but a hot-cache deletion failure aborts the
method, so the warm-store deletion is not attempted. -/
theorem C8_invalidate_amended (wallet : String) (f : Faults) :
    (invalidateReputation wallet f).1 = Except.ok () ∧
    (f.hotDelThrows = false → f.warmDelThrows = false →
      (invalidateReputation wallet f).2.hotDels = ["reputation:" ++ wallet] ∧
      (invalidateReputation wallet f).2.warmDels = [wallet]) ∧
    (f.hotDelThrows = false → f.warmDelThrows = true →
      (invalidateReputation wallet f).2.hotDels = ["reputation:" ++ wallet] ∧
      (invalidateReputation wallet f).2.warmDels = []) ∧
    (f.hotDelThrows = true →
      (invalidateReputation wallet f).2.hotDels = [] ∧
      (invalidateReputation wallet f).2.warmDels = []) := by
  refine ⟨?ok, fun h1 h2 => ?both, fun h1 h2 => ?wfail, fun h1 => ?hfail⟩
  case ok =>
    unfold invalidateReputation
    split_ifs <;> rfl
  case both => simp [invalidateReputation, h1, h2]
  case wfail => simp [invalidateReputation, h1, h2]
  case hfail => simp [invalidateReputation, h1]

/-- Witness for the amended C8: with no faults both deletions happen and the
method returns normally. -/
theorem C8_invalidate_amended_witness :
    (invalidateReputation "w" noFaults).1 = Except.ok () ∧
    (invalidateReputation "w" noFaults).2.hotDels = ["reputation:w"] ∧
    (invalidateReputation "w" noFaults).2.warmDels = ["w"] := by
  have h := C8_invalidate_amended "w" noFaults
  have hb := h.2.1 rfl rfl
  refine ⟨h.1, ?hd, hb.2⟩
  rw [hb.1]
  rfl

/-- The truncating remainder by 101 has magnitude at most 100. -/
theorem natAbs_tmod_101_lt (a : ℤ) : (Int.tmod a 101).natAbs < 101 := by
  rcases a with m | m
  · have h : Int.tmod (Int.ofNat m) 101 = Int.ofNat (m % 101) := rfl
    rw [h]
    simpa using Nat.mod_lt m (show 0 < 101 by norm_num)
  · have h : Int.tmod (Int.negSucc m) 101 = -Int.ofNat (m.succ % 101) := rfl
    rw [h]
    simpa using Nat.mod_lt m.succ (show 0 < 101 by norm_num)

/-- C9: the placeholder oracle is deterministic (it is a pure function of the
wallet string) and always yields an integer score in [0, 100] — the 32-bit
hash is reduced modulo 101 and the absolute value taken. -/
theorem C9_fetchScore_range_deterministic (wallet : String) :
    0 ≤ fetchScoreFromBlockchain wallet ∧
    fetchScoreFromBlockchain wallet ≤ 100 ∧
    fetchScoreFromBlockchain wallet = fetchScoreFromBlockchain wallet := by
  refine ⟨?nonneg, ?le, rfl⟩
  case nonneg =>
    show 0 ≤ ((Int.tmod (List.foldl (fun h ch => hashStep h ch.toNat) 0
      wallet.toList) 101).natAbs : ℤ)
    exact Int.natCast_nonneg _
  case le =>
    show ((Int.tmod (List.foldl (fun h ch => hashStep h ch.toNat) 0
      wallet.toList) 101).natAbs : ℤ) ≤ 100
    have h := natAbs_tmod_101_lt
      (List.foldl (fun h ch => hashStep h ch.toNat) 0 wallet.toList)
    exact_mod_cast Nat.lt_succ_iff.mp h

/-- The classifier echoes the wallet it was given. -/
theorem mapToReputation_wallet (w : String) (s lu : ℤ) :
    (mapToReputation w s lu).wallet = w := by
  unfold mapToReputation
  split_ifs <;> rfl

/-- C10: on the oracle-fallback path (hot miss, warm miss) with no faults,
when the `users` lookup finds no row for the wallet, the warm store is left
entirely unchanged (nothing upserted, nothing deleted), while the hot cache
is still written with the fresh snapshot and the configured TTL, and the
freshly classified snapshot is still returned. -/
theorem C10_no_user_no_warm_write (wallet : String) (env : Env)
    (hhot : env.hot = none) (hwarm : env.warm = none)
    (huser : env.userId = none) :
    (getReputationData wallet env noFaults).1 =
      Except.ok (mapToReputation wallet env.oracleScore env.now) ∧
    (getReputationData wallet env noFaults).2.warmUpserts = [] ∧
    (getReputationData wallet env noFaults).2.warmDels = [] ∧
    (getReputationData wallet env noFaults).2.hotSets =
      [("reputation:" ++ wallet,
        mapToReputation wallet env.oracleScore env.now, env.ttl)] := by
  cases hwe : env.warmError <;>
    simp [getReputationData, getReputationTry, oracleStep, persistReputation,
      noFaults, hhot, hwarm, huser, hwe, mapToReputation_wallet]

/-- Witness for C10 at a concrete wallet with no registered user. -/
theorem C10_no_user_no_warm_write_witness :
    (getReputationData "w"
      { hot := none, warm := none, warmError := false, userId := none,
        oracleScore := 42, now := 1000, ttl := 300 } noFaults).1 =
      Except.ok (mapToReputation "w" 42 1000) ∧
    (getReputationData "w"
      { hot := none, warm := none, warmError := false, userId := none,
        oracleScore := 42, now := 1000, ttl := 300 } noFaults).2.warmUpserts = [] ∧
    (getReputationData "w"
      { hot := none, warm := none, warmError := false, userId := none,
        oracleScore := 42, now := 1000, ttl := 300 } noFaults).2.hotSets =
      [("reputation:w", mapToReputation "w" 42 1000, 300)] := by
  have h := C10_no_user_no_warm_write "w"
    { hot := none, warm := none, warmError := false, userId := none,
      oracleScore := 42, now := 1000, ttl := 300 } rfl rfl rfl
  refine ⟨h.1, h.2.1, ?hs⟩
  rw [h.2.2.2]
  rfl

/-- Witness for C1 at `totalRepayment = 410.67` (41067 cents) and `term = 4`:
the schedule has 4 payments and its amounts sum to exactly 410.67. -/
theorem C1_generateSchedule_exact_witness :
    0 < 41067 ∧ 1 ≤ 4 ∧ 4 ≤ 12 ∧
    ((generateSchedule ((41067 : ℚ) / 100) 4).map SchedulePayment.amount).sum =
      (41067 : ℚ) / 100 ∧
    (generateSchedule ((41067 : ℚ) / 100) 4).length = 4 := by
  have h := C1_generateSchedule_exact 41067 4 (by norm_num) (by norm_num)
    (by norm_num)
  exact ⟨by norm_num, by norm_num, by norm_num, h.2.2.2.2.1, h.1⟩
